import Mathlib

/-!
Shallow embedding of the synchronized-playback controller in `ShareVideo`
(apps/web share page component). Times and durations are modelled as
rationals. The React component state (the `useState` hooks) becomes
`SessionState`; the bound media elements become `Elements`; in-flight
`play()` promises become a pending list tagged with the behaviour of the
catch handler attached at the call site; event/effect handlers become
functions on a `World` record, and an event step function folds arbitrary
interleavings of native media events and user intents.
-/

namespace Cap

/-- React component state of `ShareVideo`: the six `useState` hooks
(`isPlaying`, `currentTime`, `isLoading`, `longestDuration`, `seeking`,
`videoMetadataLoaded`). -/
structure SessionState where
  isPlaying : Bool
  currentTime : ℚ
  isLoading : Bool
  longestDuration : ℚ
  seeking : Bool
  videoMetadataLoaded : Bool
deriving DecidableEq, Repr

/-- Behaviour of the rejection handler attached to a `play()` call site:
`revert` = `catch` runs `console.error` and `setIsPlaying(false)` (the
handler in `handlePlayPauseClick` L64-67 and in `syncPlayback` L88-91);
`logOnly` = `catch` only logs (`syncPlay` L176); `nocatch` = no rejection
handler at all (the bare `play()` calls at L135 and L166). -/
inductive CatchKind where
  | revert
  | logOnly
  | nocatch
deriving DecidableEq, Repr

/-- Sticky per-track flags recording whether a play command has ever been
issued to each underlying element. -/
structure Tracks where
  videoPlayIssued : Bool
  audioPlayIssued : Bool
deriving DecidableEq, Repr

/-- Observable written state of the two bound media elements: last
commanded position and muted flag per track. -/
structure Elements where
  videoTime : ℚ
  audioTime : ℚ
  videoMuted : Bool
  audioMuted : Bool
deriving DecidableEq, Repr

/-- Modelled from the spec: the media binding (the `VideoPlayer` component,
not under src/) fans each command issued on the single `video2Ref` handle
out to both the video element and the companion audio element; §4.1
`requestPlay()` issues a play command to both elements. -/
def issuePlay (_t : Tracks) : Tracks :=
  ⟨true, true⟩

/-- One bound session: React state, the elements it drives, sticky
play-issued flags, whether a `timeupdate` listener is registered on the
element (sticky, because the effect at L77-99 calls `syncPlayback();` as a
bare statement and discards the `removeEventListener` cleanup that
`syncPlayback` returns, so a listener, once added, is never removed),
in-flight (pending) play promises in issue order, rejected promises whose
catch handlers are queued but not yet run, and a count of console reports
(`console.error` / `console.log`) emitted. -/
structure World where
  s : SessionState
  elems : Elements
  tracks : Tracks
  timeupdateRegistered : Bool
  pending : List CatchKind
  toRun : List CatchKind
  notices : ℕ
deriving DecidableEq, Repr

/-- Initial hook values (L17-22): paused, time 0, loading, duration 0, not
seeking, metadata not loaded. -/
def initSession : SessionState :=
  ⟨false, 0, true, 0, false, false⟩

def initElements : Elements :=
  ⟨0, 0, false, false⟩

def initWorld : World :=
  ⟨initSession, initElements, ⟨false, false⟩, false, [], [], 0⟩

/-- The `loadedmetadata` listener `onVideoLoadedMetadata` (L32-38):
`setVideoMetadataLoaded(true)` and `setLongestDuration(video2Ref.current.duration)`;
the effect at L24-29 watching `videoMetadataLoaded` then runs
`setIsLoading(false)` — folded into the same step. -/
def onVideoLoadedMetadata (d : ℚ) (s : SessionState) : SessionState :=
  { s with videoMetadataLoaded := true, longestDuration := d, isLoading := false }

/-- The `timeupdate` handler `handleTimeUpdate` (L83-86) runs
`setCurrentTime(videoElement.currentTime)` unconditionally. `syncPlayback`
(L77-99) adds it as a listener when `isPlaying && !isLoading` (with a
bound element), and because the effect discards the cleanup `syncPlayback`
returns, the listener is never removed afterwards. A delivered timeupdate
with element position `t` therefore updates `currentTime` exactly when a
listener has ever been registered — even while paused, and with no check
of `seeking` anywhere. -/
def handleTimeUpdate (t : ℚ) (w : World) : World :=
  if w.timeupdateRegistered then
    { w with s := { w.s with currentTime := t } }
  else w

/-- The native `seeking`-event handler `handleSeeking` (L103-108): when
`seeking` is true it runs `setCurrentTime(video2Ref.current.currentTime)`,
with `t` the element-reported position. -/
def handleSeeking (t : ℚ) (w : World) : World :=
  if w.s.seeking then
    { w with s := { w.s with currentTime := t } }
  else w

/-- Plays issued by one press of play from the paused state, in issue
order: the handler's own awaited `play()` (catch reverts, L62-67); then,
after the re-render with `isPlaying = true`, the effects in source order:
`syncPlayback`'s `play()` (catch reverts, L88-91, only once not loading),
the bare `play()` of the `isPlaying` effect (no catch, L166), and
`syncPlay`'s `play()` (catch logs, L175-176, only once not loading). -/
def playBurst (loading : Bool) : List CatchKind :=
  CatchKind.revert ::
    ((if loading then [] else [CatchKind.revert]) ++ [CatchKind.nocatch] ++
      (if loading then [] else [CatchKind.logOnly]))

/-- The click handler `handlePlayPauseClick` (L52-69) together with the
effects keyed on `isPlaying` that run on the re-render it triggers.
Paused → playing: `setIsPlaying(true)` and the play burst is issued; when
the session is not loading, the re-run of `syncPlayback` also registers a
`timeupdate` listener (never to be removed, since its cleanup is
discarded). Playing → paused: `setIsPlaying(false)` and
`videoElement.pause()`; per the media-element contract, `pause()` rejects
every pending play promise (AbortError), queueing their catch handlers;
the `isPlaying` effect (L168) then pauses again, and the re-run of
`syncPlayback` early-returns without touching the leaked listener. -/
def handlePlayPauseClick (w : World) : World :=
  if w.s.isPlaying then
    { w with s := { w.s with isPlaying := false },
             pending := [], toRun := w.toRun ++ w.pending }
  else
    { w with s := { w.s with isPlaying := true },
             pending := w.pending ++ playBurst w.s.isLoading,
             tracks := issuePlay w.tracks,
             timeupdateRegistered := w.timeupdateRegistered || !w.s.isLoading }

/-- Effect of running one queued/popped rejection continuation: `revert`
logs `console.error` and runs `setIsPlaying(false)`; `logOnly` only logs;
`nocatch` is an unhandled rejection — it writes nothing and reports
nothing through the component. -/
def applyCatch (k : CatchKind) (w : World) : World :=
  match k with
  | CatchKind.revert =>
      { w with s := { w.s with isPlaying := false }, notices := w.notices + 1 }
  | CatchKind.logOnly => { w with notices := w.notices + 1 }
  | CatchKind.nocatch => w

/-- A pending play promise (the oldest) rejects spontaneously, e.g. an
autoplay-policy denial, and its catch handler runs. -/
def playReject (w : World) : World :=
  match w.pending with
  | [] => w
  | k :: rest => applyCatch k { w with pending := rest }

/-- One queued catch handler of an already-aborted play promise runs. -/
def runCatch (w : World) : World :=
  match w.toRun with
  | [] => w
  | k :: rest => applyCatch k { w with toRun := rest }

/-- The seek-bar math `calculateNewTime` (L119-124):
`offsetX = event.clientX - rect.left`;
`relativePosition = offsetX / rect.width`;
result `relativePosition * longestDuration`. No clamping appears in the
source. -/
def calculateNewTime (clientX barLeft barWidth duration : ℚ) : ℚ :=
  let offsetX := clientX - barLeft
  let relativePosition := offsetX / barWidth
  relativePosition * duration

/-- The spec's stated commit formula, written from the spec's words for
comparison with `calculateNewTime`:
clamp((pointerX − barLeft) / barWidth, 0, 1) * duration. -/
def specTargetTime (pointerX barLeft barWidth duration : ℚ) : ℚ :=
  min 1 (max 0 ((pointerX - barLeft) / barWidth)) * duration

/-- `applyTimeToVideos` (L71-74): writes `time` to the element's
`currentTime` (fanned out to both tracks per the spec-modelled binding)
and runs `setCurrentTime(time)`. The value is applied as given — no
clamping appears in the source. -/
def applyTimeToVideos (time : ℚ) (w : World) : World :=
  { w with s := { w.s with currentTime := time },
           elems := { w.elems with videoTime := time, audioTime := time } }

/-- Modelled from the spec: the begin-seek operation (§4.2
`NotSeeking → Seeking`, §6 `beginSeek()`) is not present in this source
fragment (only its consumers are); per the spec it sets `isSeeking = true`. -/
def beginSeek (w : World) : World :=
  { w with s := { w.s with seeking := true } }

/-- The `mouseleave` handler on the seek bar (L231): `setSeeking(false)`. -/
def handleMouseLeave (w : World) : World :=
  { w with s := { w.s with seeking := false } }

/-- `handleSeekMouseUp` (L127-137): early-returns unless `seeking`; else
`setSeeking(false)`, computes `calculateNewTime`, applies it via
`applyTimeToVideos`, and, if `isPlaying`, issues a bare `play()` (L135, no
catch handler). -/
def handleSeekMouseUp (clientX barLeft barWidth : ℚ) (w : World) : World :=
  if !w.s.seeking then w
  else
    let t := calculateNewTime clientX barLeft barWidth w.s.longestDuration
    let w' := applyTimeToVideos t { w with s := { w.s with seeking := false } }
    if w.s.isPlaying then
      { w' with pending := w'.pending ++ [CatchKind.nocatch],
                tracks := issuePlay w'.tracks }
    else w'

/-- `handleMuteClick` (L139-144): toggles the element's `muted` flag
(fanned out to both tracks per the spec-modelled binding). -/
def handleMuteClick (w : World) : World :=
  { w with elems := { w.elems with videoMuted := !w.elems.videoMuted,
                                   audioMuted := !w.elems.audioMuted } }

/-- `watchedPercentage` (L161-162):
`longestDuration > 0 ? (currentTime / longestDuration) * 100 : 0`. -/
def watchedPercentage (s : SessionState) : ℚ :=
  if s.longestDuration > 0 then s.currentTime / s.longestDuration * 100 else 0

/-- Events a bound session can receive: native media events (metadata for
either track, timeupdate, seeking), user intents (play/pause click, seek
begin/commit/leave, mute), and asynchronous play-promise completions. -/
inductive Ev where
  | videoMeta (d : ℚ)
  | audioMeta (d : ℚ)
  | timeUpdate (t : ℚ)
  | seekingEvt (t : ℚ)
  | clickPlayPause
  | evBeginSeek
  | seekMouseUp (clientX barLeft barWidth : ℚ)
  | mouseLeave
  | clickMute
  | evPlayReject
  | evRunCatch
deriving DecidableEq, Repr

/-- Metadata step: the `loadedmetadata` listener is registered only on
`video2Ref` (L40-42); no listener exists for the audio track, so its
metadata event leaves the session unchanged. When `isLoading` flips
true → false with `isPlaying` already true, the effects keyed on
`[isPlaying, isLoading]` re-run and issue `syncPlayback`'s play (catch
reverts) and `syncPlay`'s play (catch logs), and `syncPlayback` also
registers the (never removed) `timeupdate` listener. -/
def videoMetaStep (d : ℚ) (w : World) : World :=
  let s' := onVideoLoadedMetadata d w.s
  if w.s.isLoading && w.s.isPlaying then
    { w with s := s',
             pending := w.pending ++ [CatchKind.revert, CatchKind.logOnly],
             tracks := issuePlay w.tracks,
             timeupdateRegistered := true }
  else { w with s := s' }

/-- One step of the event-driven session. -/
def step (e : Ev) (w : World) : World :=
  match e with
  | Ev.videoMeta d => videoMetaStep d w
  | Ev.audioMeta _ => w
  | Ev.timeUpdate t => handleTimeUpdate t w
  | Ev.seekingEvt t => handleSeeking t w
  | Ev.clickPlayPause => handlePlayPauseClick w
  | Ev.evBeginSeek => beginSeek w
  | Ev.seekMouseUp x l bw => handleSeekMouseUp x l bw w
  | Ev.mouseLeave => handleMouseLeave w
  | Ev.clickMute => handleMuteClick w
  | Ev.evPlayReject => playReject w
  | Ev.evRunCatch => runCatch w

/-- Folds a sequence of events over a session. -/
def run (es : List Ev) (w : World) : World :=
  es.foldl (fun a e => step e a) w

end Cap

namespace Cap

/-- Metadata-ready events from the two tracks, carrying the reported
duration. -/
inductive MetaEv where
  | videoMeta (d : ℚ)
  | audioMeta (d : ℚ)
deriving DecidableEq, Repr

/-- Reaction of the component to one metadata-ready event: the
`loadedmetadata` listener exists only on `video2Ref` (L40-42), so an
audio-track metadata event is not observed at all. -/
def metaStep (e : MetaEv) (s : SessionState) : SessionState :=
  match e with
  | MetaEv.videoMeta d => onVideoLoadedMetadata d s
  | MetaEv.audioMeta _ => s

/-- Folds a sequence of metadata-ready events over the session state. -/
def runMeta (es : List MetaEv) (s : SessionState) : SessionState :=
  es.foldl (fun a e => metaStep e a) s

/-- Whether the sequence contains a video-track metadata event. -/
def hasVideoMeta : List MetaEv → Bool
  | [] => false
  | MetaEv.videoMeta _ :: _ => true
  | MetaEv.audioMeta _ :: es => hasVideoMeta es

/-- Duration reported by the last video-track metadata event of the
sequence, defaulting to `dflt` when there is none. -/
def lastVideoDur (dflt : ℚ) : List MetaEv → ℚ
  | [] => dflt
  | MetaEv.videoMeta d :: es => lastVideoDur d es
  | MetaEv.audioMeta _ :: es => lastVideoDur dflt es

end Cap

namespace Cap

/-- Reachable session used in several seek-window statements: metadata is
reported with duration 120, the user presses play, then begins a seek
drag. -/
def wSeek : World :=
  run [Ev.videoMeta 120, Ev.clickPlayPause, Ev.evBeginSeek] initWorld

/-- C1, counterexample: with the audio track reporting duration 10 before
the video track reports 5, the session reaches Ready but `duration` ends
as 5 — the video track's report — not `max 10 5 = 10`, refuting the claim
that `duration` is set to the maximum of the two tracks' reported
durations regardless of order. -/
theorem C1_counterexample :
    (runMeta [MetaEv.audioMeta 10, MetaEv.videoMeta 5] initSession).isLoading = false
    ∧ (runMeta [MetaEv.audioMeta 10, MetaEv.videoMeta 5] initSession).longestDuration = 5
    ∧ ¬ (runMeta [MetaEv.audioMeta 10, MetaEv.videoMeta 5] initSession).longestDuration
        = max 10 5 := by
  decide

/-- C1, amended: for every sequence of interleaved metadata-ready events,
the session is out of Loading after the run exactly when the sequence
contains a video-track report (it leaves Loading at the first such report
and, by the last conjunct, never re-enters it, so the transition fires
exactly once), and `duration` equals the video track's last reported
duration; audio-track reports are ignored, since no `loadedmetadata`
listener is registered for the audio track. -/
theorem C1_amended :
    (∀ (es : List MetaEv) (s : SessionState),
        (runMeta es s).isLoading = (!hasVideoMeta es && s.isLoading)
        ∧ (runMeta es s).longestDuration = lastVideoDur s.longestDuration es)
    ∧ ∀ (e : MetaEv) (s : SessionState),
        s.isLoading = false → (metaStep e s).isLoading = false := by
  constructor
  · intro es
    induction es with
    | nil => intro s; simp [runMeta, hasVideoMeta, lastVideoDur]
    | cons e es ih =>
      intro s
      cases e with
      | videoMeta d =>
        simpa [runMeta, metaStep, onVideoLoadedMetadata, hasVideoMeta, lastVideoDur]
          using ih (onVideoLoadedMetadata d s)
      | audioMeta d =>
        simpa [runMeta, metaStep, hasVideoMeta, lastVideoDur] using ih s
  · intro e s h
    cases e with
    | videoMeta d => simp [metaStep, onVideoLoadedMetadata]
    | audioMeta d => simpa [metaStep] using h

/-- C1, witness: the amended statement evaluated on the concrete sequence
audio-then-video and on a state already out of Loading. -/
theorem C1_amended_witness :
    ((runMeta [MetaEv.audioMeta 10, MetaEv.videoMeta 5] initSession).isLoading
        = (!hasVideoMeta [MetaEv.audioMeta 10, MetaEv.videoMeta 5] && initSession.isLoading))
    ∧ (metaStep (MetaEv.audioMeta 3) (onVideoLoadedMetadata 7 initSession)).isLoading = false :=
  ⟨(C1_amended.1 [MetaEv.audioMeta 10, MetaEv.videoMeta 5] initSession).1,
   C1_amended.2 (MetaEv.audioMeta 3) (onVideoLoadedMetadata 7 initSession) (by decide)⟩

/-- C2, counterexample: in the reachable state `wSeek` — playing, loaded,
`isSeeking = true`, `currentTime = 0`, with the `timeupdate` listener
registered by the play click — a delivered timeupdate with element
position 5 overwrites `currentTime` to 5, refuting the claim that no
automatic time-update event changes `currentTime` while `isSeeking` is
true: neither the registration condition nor the handler body consults
`seeking`. -/
theorem C2_counterexample :
    wSeek.s.seeking = true ∧ wSeek.s.isLoading = false ∧ wSeek.s.isPlaying = true
    ∧ wSeek.timeupdateRegistered = true
    ∧ wSeek.s.currentTime = 0
    ∧ (handleTimeUpdate 5 wSeek).s.currentTime = 5 := by
  decide

/-- C2, amended: a time-advance event updates `currentTime` exactly when a
`timeupdate` listener has been registered — which first happens once the
session is playing while loaded, and persists from then on because the
effect at L77-99 discards `syncPlayback`'s cleanup, so no session event
(pausing included) ever de-registers it; `isSeeking` is consulted nowhere
and is left unchanged by the event. Before any such registration (e.g.
before the first play) a timeupdate leaves the session unchanged. -/
theorem C2_amended (w : World) (t : ℚ) :
    (w.timeupdateRegistered = true → (handleTimeUpdate t w).s.currentTime = t)
    ∧ (w.timeupdateRegistered = false → handleTimeUpdate t w = w)
    ∧ (handleTimeUpdate t w).s.seeking = w.s.seeking
    ∧ ∀ e : Ev, w.timeupdateRegistered = true →
        (step e w).timeupdateRegistered = true := by
  refine ⟨fun h => by simp [handleTimeUpdate, h], fun h => by simp [handleTimeUpdate, h],
    ?_, fun e h => ?_⟩
  · by_cases h : w.timeupdateRegistered <;> simp [handleTimeUpdate, h]
  · cases e with
    | videoMeta d =>
      by_cases hc : w.s.isLoading && w.s.isPlaying <;>
        simp [step, videoMetaStep, hc, h]
    | audioMeta d => exact h
    | timeUpdate u => simp [step, handleTimeUpdate, h]
    | seekingEvt u =>
      by_cases hc : w.s.seeking <;> simp [step, handleSeeking, hc, h]
    | clickPlayPause =>
      by_cases hc : w.s.isPlaying <;> simp [step, handlePlayPauseClick, hc, h]
    | evBeginSeek => exact h
    | seekMouseUp x l bw =>
      by_cases hs : w.s.seeking
      · by_cases hp : w.s.isPlaying <;>
          simp [step, handleSeekMouseUp, hs, hp, applyTimeToVideos, h]
      · simp [step, handleSeekMouseUp, hs, h]
    | mouseLeave => exact h
    | clickMute => exact h
    | evPlayReject =>
      cases hpend : w.pending with
      | nil => simp [step, playReject, hpend, h]
      | cons k rest => cases k <;> simp [step, playReject, hpend, applyCatch, h]
    | evRunCatch =>
      cases htr : w.toRun with
      | nil => simp [step, runCatch, htr, h]
      | cons k rest => cases k <;> simp [step, runCatch, htr, applyCatch, h]

/-- C2, witness: the amended statement evaluated at the concrete
registered seeking state `wSeek` (update applied, seeking untouched,
registration surviving a pause click) and at the unregistered initial
world (event is a no-op). -/
theorem C2_amended_witness :
    (handleTimeUpdate 5 wSeek).s.currentTime = 5
    ∧ handleTimeUpdate 5 initWorld = initWorld
    ∧ (step Ev.clickPlayPause wSeek).timeupdateRegistered = true :=
  ⟨(C2_amended wSeek 5).1 (by decide),
   (C2_amended initWorld 5).2.1 (by decide),
   (C2_amended wSeek 5).2.2.2 Ev.clickPlayPause (by decide)⟩

/-- Session-level view for teardown reasoning: whether the component is
still mounted, the `isPlaying` hook, and the count of console reports. -/
structure TeardownWorld where
  mounted : Bool
  isPlaying : Bool
  notices : ℕ
deriving DecidableEq, Repr

/-- The continuation run when the awaited `play()` promise of
`handlePlayPauseClick` rejects (L64-67): `console.error(...)` then
`setIsPlaying(false)`. The source performs these writes unconditionally —
no check that the component/session is still mounted appears anywhere in
the handler, so the same writes are attempted when the completion arrives
after teardown. -/
def playRejectionCompletion (m : TeardownWorld) : TeardownWorld :=
  { m with isPlaying := false, notices := m.notices + 1 }

/-- The continuation run when `requestFullscreen()` rejects in
`handleFullscreenClick` (L149-155): it only logs; no session state is
written. -/
def fullscreenRejectionCompletion (m : TeardownWorld) : TeardownWorld :=
  { m with isPlaying := m.isPlaying, notices := m.notices + 1 }

/-- C3, evaluation at the failing input: with the component already torn
down (`mounted = false`) and a play request still in flight, the
late-arriving rejection continuation still performs its write —
`setIsPlaying(false)` plus a console report — because no async completion
in the source is guarded by a liveness check; it is not a no-op on the
session view. The fullscreen rejection continuation happens to write no
playback state (it only logs). -/
theorem C3_evaluation :
    playRejectionCompletion ⟨false, true, 0⟩ = ⟨false, false, 1⟩
    ∧ ¬ playRejectionCompletion ⟨false, true, 0⟩ = (⟨false, true, 0⟩ : TeardownWorld)
    ∧ fullscreenRejectionCompletion ⟨false, true, 0⟩ = ⟨false, true, 1⟩ := by
  decide

/-- C4: from a paused session with no play request in flight, pressing
play sets `isPlaying = true` and the first in-flight request carries the
reverting catch handler of `handlePlayPauseClick` (so the rejection is
consumed at the handler boundary and cannot escape); if that request then
fails, `isPlaying` is reverted to `false` and the failure is recorded as a
console notice. -/
theorem C4_play_failure_reverts (w : World)
    (hp : w.s.isPlaying = false) (hq : w.pending = []) :
    (handlePlayPauseClick w).s.isPlaying = true
    ∧ (handlePlayPauseClick w).pending.head? = some CatchKind.revert
    ∧ (playReject (handlePlayPauseClick w)).s.isPlaying = false
    ∧ (playReject (handlePlayPauseClick w)).notices = w.notices + 1 := by
  simp [handlePlayPauseClick, hp, hq, playBurst, playReject, applyCatch, issuePlay]

/-- C4, witness: the statement evaluated at the ready paused session
reached by one metadata event. -/
theorem C4_witness :
    (handlePlayPauseClick (run [Ev.videoMeta 120] initWorld)).s.isPlaying = true
    ∧ (handlePlayPauseClick (run [Ev.videoMeta 120] initWorld)).pending.head?
        = some CatchKind.revert
    ∧ (playReject (handlePlayPauseClick (run [Ev.videoMeta 120] initWorld))).s.isPlaying = false
    ∧ (playReject (handlePlayPauseClick (run [Ev.videoMeta 120] initWorld))).notices
        = (run [Ev.videoMeta 120] initWorld).notices + 1 :=
  C4_play_failure_reverts (run [Ev.videoMeta 120] initWorld) (by decide) (by decide)

lemma runCatch_preserves (w : World)
    (h1 : w.s.isPlaying = false) (h2 : w.pending = []) :
    (runCatch w).s.isPlaying = false ∧ (runCatch w).pending = [] := by
  cases htr : w.toRun with
  | nil => simp [runCatch, htr, h1, h2]
  | cons k rest => cases k <;> simp [runCatch, htr, applyCatch, h1, h2]

lemma runCatch_iterate (n : ℕ) (w : World)
    (h1 : w.s.isPlaying = false) (h2 : w.pending = []) :
    (runCatch^[n] w).s.isPlaying = false ∧ (runCatch^[n] w).pending = [] := by
  induction n generalizing w with
  | zero => exact ⟨h1, h2⟩
  | succ n ih =>
    rw [Function.iterate_succ_apply]
    exact ih (runCatch w) (runCatch_preserves w h1 h2).1 (runCatch_preserves w h1 h2).2

/-- C6: from a paused session with nothing in flight, the first toggle
leaves at least one play request pending, and after the second toggle —
whose `pause()` aborts every pending play promise — the session has
`isPlaying = false` and an empty in-flight list, and this remains so after
any number of the aborted promises' queued catch handlers run. -/
theorem C6_double_toggle (w : World)
    (h1 : w.s.isPlaying = false) (h2 : w.pending = []) (n : ℕ) :
    (handlePlayPauseClick w).pending ≠ []
    ∧ (runCatch^[n] (handlePlayPauseClick (handlePlayPauseClick w))).s.isPlaying = false
    ∧ (runCatch^[n] (handlePlayPauseClick (handlePlayPauseClick w))).pending = [] := by
  have hw1 : handlePlayPauseClick w
      = { w with s := { w.s with isPlaying := true },
                 pending := playBurst w.s.isLoading, tracks := issuePlay w.tracks,
                 timeupdateRegistered := w.timeupdateRegistered || !w.s.isLoading } := by
    simp [handlePlayPauseClick, h1, h2]
  have hsecond : (handlePlayPauseClick (handlePlayPauseClick w)).s.isPlaying = false
      ∧ (handlePlayPauseClick (handlePlayPauseClick w)).pending = [] := by
    rw [hw1]
    simp [handlePlayPauseClick]
  refine ⟨?_, (runCatch_iterate n _ hsecond.1 hsecond.2).1,
    (runCatch_iterate n _ hsecond.1 hsecond.2).2⟩
  rw [hw1]
  cases h : w.s.isLoading <;> simp [playBurst]

/-- C6, witness: the statement evaluated at the ready paused session, with
four catch handlers run after the double toggle. -/
theorem C6_witness :
    (handlePlayPauseClick (run [Ev.videoMeta 120] initWorld)).pending ≠ []
    ∧ (runCatch^[4] (handlePlayPauseClick (handlePlayPauseClick
        (run [Ev.videoMeta 120] initWorld)))).s.isPlaying = false
    ∧ (runCatch^[4] (handlePlayPauseClick (handlePlayPauseClick
        (run [Ev.videoMeta 120] initWorld)))).pending = [] :=
  C6_double_toggle (run [Ev.videoMeta 120] initWorld) (by decide) (by decide) 4

end Cap

namespace Cap

/-- C5, counterexample: at barLeft 100, barWidth 200, duration 120 and
pointerX 50 (left of the bar), the source's `calculateNewTime` yields −30
while the claimed clamped formula yields 0; the committed time is negative
and `applyTimeToVideos` writes it unclamped into both the element position
and `currentTime`, refuting both the clamp in the commit formula and the
claim that the applied time stays within `[0, duration]`. -/
theorem C5_counterexample :
    calculateNewTime 50 100 200 120 = -30
    ∧ specTargetTime 50 100 200 120 = 0
    ∧ ¬ calculateNewTime 50 100 200 120 = specTargetTime 50 100 200 120
    ∧ calculateNewTime 50 100 200 120 < 0
    ∧ (applyTimeToVideos (calculateNewTime 50 100 200 120) wSeek).s.currentTime < 0
    ∧ (applyTimeToVideos (calculateNewTime 50 100 200 120) wSeek).elems.videoTime < 0 := by
  have h1 : calculateNewTime 50 100 200 120 = -30 := by norm_num [calculateNewTime]
  have h2 : specTargetTime 50 100 200 120 = 0 := by norm_num [specTargetTime]
  refine ⟨h1, h2, ?_, ?_, ?_, ?_⟩ <;>
    simp [h1, h2, applyTimeToVideos]

/-- C5, amended: the seek-commit target is the raw proportional value
`((pointerX − barLeft) / barWidth) · duration` with no clamping, and the
commit writes exactly that value — unclamped — to `currentTime` and to the
position of both elements; in particular it can be negative or exceed the
duration. -/
theorem C5_amended (clientX barLeft barWidth : ℚ) (w : World)
    (hs : w.s.seeking = true) :
    (handleSeekMouseUp clientX barLeft barWidth w).s.currentTime
        = (clientX - barLeft) / barWidth * w.s.longestDuration
    ∧ (handleSeekMouseUp clientX barLeft barWidth w).elems.videoTime
        = (clientX - barLeft) / barWidth * w.s.longestDuration
    ∧ (handleSeekMouseUp clientX barLeft barWidth w).elems.audioTime
        = (clientX - barLeft) / barWidth * w.s.longestDuration := by
  by_cases hp : w.s.isPlaying
  all_goals simp [handleSeekMouseUp, hs, hp, calculateNewTime, applyTimeToVideos]

/-- C5, witness: the amended statement evaluated at the reachable seeking
state `wSeek` with the pointer left of the bar. -/
theorem C5_amended_witness :
    (handleSeekMouseUp 50 100 200 wSeek).s.currentTime
      = (50 - 100) / 200 * wSeek.s.longestDuration :=
  (C5_amended 50 100 200 wSeek (by decide)).1

/-- C7: committing a seek while `isSeeking = true` sets `currentTime` to
the computed target time, clears `isSeeking`, preserves `isPlaying`, and,
when `isPlaying` is true, issues one more play command (the bare `play()`
of the mouse-up handler) to both tracks. -/
theorem C7_seek_commit (clientX barLeft barWidth : ℚ) (w : World)
    (hs : w.s.seeking = true) :
    (handleSeekMouseUp clientX barLeft barWidth w).s.currentTime
        = calculateNewTime clientX barLeft barWidth w.s.longestDuration
    ∧ (handleSeekMouseUp clientX barLeft barWidth w).s.seeking = false
    ∧ (handleSeekMouseUp clientX barLeft barWidth w).s.isPlaying = w.s.isPlaying
    ∧ (w.s.isPlaying = true →
        (handleSeekMouseUp clientX barLeft barWidth w).pending
            = w.pending ++ [CatchKind.nocatch]
        ∧ (handleSeekMouseUp clientX barLeft barWidth w).tracks = issuePlay w.tracks) := by
  by_cases hp : w.s.isPlaying
  all_goals simp [handleSeekMouseUp, hs, hp, applyTimeToVideos]

/-- C7, witness: the claim's own example on the reachable playing seeking
state `wSeek` (duration 120): barLeft 100, barWidth 200, pointerX 150
commits `currentTime = 30`, clears `isSeeking`, keeps `isPlaying = true`
and re-issues a play command. -/
theorem C7_seek_commit_witness :
    (handleSeekMouseUp 150 100 200 wSeek).s.currentTime = 30
    ∧ (handleSeekMouseUp 150 100 200 wSeek).s.seeking = false
    ∧ (handleSeekMouseUp 150 100 200 wSeek).s.isPlaying = true
    ∧ (handleSeekMouseUp 150 100 200 wSeek).pending
        = wSeek.pending ++ [CatchKind.nocatch] := by
  have h := C7_seek_commit 150 100 200 wSeek (by decide)
  have hd : wSeek.s.longestDuration = 120 := by decide
  have hplaying : wSeek.s.isPlaying = true := by decide
  have hval : calculateNewTime 150 100 200 wSeek.s.longestDuration = 30 := by
    rw [hd]; norm_num [calculateNewTime]
  exact ⟨h.1.trans hval, h.2.1, h.2.2.1.trans hplaying, (h.2.2.2 hplaying).1⟩

/-- C9: `watchedPercentage` is exactly 0 when the duration is 0 (the
ternary guard avoids the division), equals `currentTime / duration · 100`
when the duration is positive, and lies in `[0, 100]` whenever
`currentTime ∈ [0, duration]`. -/
theorem C9_watchedPercentage (s : SessionState) :
    (s.longestDuration = 0 → watchedPercentage s = 0)
    ∧ (0 < s.longestDuration →
        watchedPercentage s = s.currentTime / s.longestDuration * 100)
    ∧ (0 ≤ s.currentTime → s.currentTime ≤ s.longestDuration →
        0 ≤ watchedPercentage s ∧ watchedPercentage s ≤ 100) := by
  unfold watchedPercentage
  refine ⟨fun h => by simp [h], fun h => by simp [h], fun h0 h1 => ?_⟩
  by_cases hd : s.longestDuration > 0
  · simp only [hd, if_true]
    constructor
    · positivity
    · have hle : s.currentTime / s.longestDuration ≤ 1 := (div_le_one hd).2 h1
      calc s.currentTime / s.longestDuration * 100 ≤ 1 * 100 := by
            exact mul_le_mul_of_nonneg_right hle (by norm_num)
        _ = 100 := by norm_num
  · simp [hd]

/-- C9, witness: the statement evaluated at the initial session (duration
0) and at a loaded session with `currentTime = 30`, duration 120. -/
theorem C9_watchedPercentage_witness :
    watchedPercentage initSession = 0
    ∧ 0 ≤ watchedPercentage (⟨false, 30, false, 120, false, true⟩ : SessionState)
    ∧ watchedPercentage (⟨false, 30, false, 120, false, true⟩ : SessionState) ≤ 100 :=
  ⟨(C9_watchedPercentage initSession).1 rfl,
   ((C9_watchedPercentage ⟨false, 30, false, 120, false, true⟩).2.2
      (by decide) (by decide)).1,
   ((C9_watchedPercentage ⟨false, 30, false, 120, false, true⟩).2.2
      (by decide) (by decide)).2⟩

/-- C10: invoking the seek mouse-up/touch-end handler while
`isSeeking = false` is a complete no-op — the early return fires, so the
whole session (state, element positions, in-flight commands, reports) is
unchanged. -/
theorem C10_commit_noop (clientX barLeft barWidth : ℚ) (w : World)
    (hs : w.s.seeking = false) :
    handleSeekMouseUp clientX barLeft barWidth w = w := by
  simp [handleSeekMouseUp, hs]

/-- C10, witness: the statement evaluated at the initial world. -/
theorem C10_commit_noop_witness :
    handleSeekMouseUp 150 100 200 initWorld = initWorld :=
  C10_commit_noop 150 100 200 initWorld (by decide)

end Cap

namespace Cap

/-- Lockstep property of a session: whenever the logical `isPlaying` flag
is true a play command has been issued to both tracks, the play-issued
flags of the two tracks agree, and the commanded element state (position,
muted) of the two tracks agrees. -/
def Lockstep (w : World) : Prop :=
  (w.s.isPlaying = true →
    w.tracks.videoPlayIssued = true ∧ w.tracks.audioPlayIssued = true)
  ∧ w.tracks.videoPlayIssued = w.tracks.audioPlayIssued
  ∧ w.elems.videoTime = w.elems.audioTime
  ∧ w.elems.videoMuted = w.elems.audioMuted

lemma lockstep_applyCatch (k : CatchKind) (w : World) (h : Lockstep w) :
    Lockstep (applyCatch k w) := by
  obtain ⟨h1, h2, h3, h4⟩ := h
  cases k with
  | revert => exact ⟨fun hp => absurd hp Bool.false_ne_true, h2, h3, h4⟩
  | logOnly => exact ⟨h1, h2, h3, h4⟩
  | nocatch => exact ⟨h1, h2, h3, h4⟩

lemma lockstep_step (e : Ev) (w : World) (h : Lockstep w) : Lockstep (step e w) := by
  obtain ⟨h1, h2, h3, h4⟩ := h
  cases e with
  | videoMeta d =>
    by_cases hc : w.s.isLoading && w.s.isPlaying
    · have he : step (Ev.videoMeta d) w
          = { w with s := onVideoLoadedMetadata d w.s,
                     pending := w.pending ++ [CatchKind.revert, CatchKind.logOnly],
                     tracks := issuePlay w.tracks, timeupdateRegistered := true } := by
        simp [step, videoMetaStep, hc]
      rw [he]
      exact ⟨fun _ => ⟨rfl, rfl⟩, rfl, h3, h4⟩
    · have he : step (Ev.videoMeta d) w = { w with s := onVideoLoadedMetadata d w.s } := by
        simp [step, videoMetaStep, hc]
      rw [he]
      exact ⟨h1, h2, h3, h4⟩
  | audioMeta d => exact ⟨h1, h2, h3, h4⟩
  | timeUpdate t =>
    by_cases hc : w.timeupdateRegistered
    · have he : step (Ev.timeUpdate t) w
          = { w with s := { w.s with currentTime := t } } := by
        simp [step, handleTimeUpdate, hc]
      rw [he]
      exact ⟨h1, h2, h3, h4⟩
    · have he : step (Ev.timeUpdate t) w = w := by
        simp [step, handleTimeUpdate, hc]
      rw [he]
      exact ⟨h1, h2, h3, h4⟩
  | seekingEvt t =>
    by_cases hc : w.s.seeking
    · have he : step (Ev.seekingEvt t) w
          = { w with s := { w.s with currentTime := t } } := by
        simp [step, handleSeeking, hc]
      rw [he]
      exact ⟨h1, h2, h3, h4⟩
    · have he : step (Ev.seekingEvt t) w = w := by
        simp [step, handleSeeking, hc]
      rw [he]
      exact ⟨h1, h2, h3, h4⟩
  | clickPlayPause =>
    by_cases hc : w.s.isPlaying
    · have he : step Ev.clickPlayPause w
          = { w with s := { w.s with isPlaying := false },
                     pending := [], toRun := w.toRun ++ w.pending } := by
        simp [step, handlePlayPauseClick, hc]
      rw [he]
      exact ⟨fun hp => absurd hp Bool.false_ne_true, h2, h3, h4⟩
    · have he : step Ev.clickPlayPause w
          = { w with s := { w.s with isPlaying := true },
                     pending := w.pending ++ playBurst w.s.isLoading,
                     tracks := issuePlay w.tracks,
                     timeupdateRegistered := w.timeupdateRegistered || !w.s.isLoading } := by
        simp [step, handlePlayPauseClick, hc]
      rw [he]
      exact ⟨fun _ => ⟨rfl, rfl⟩, rfl, h3, h4⟩
  | evBeginSeek => exact ⟨h1, h2, h3, h4⟩
  | seekMouseUp x l bw =>
    by_cases hs : w.s.seeking
    · by_cases hp : w.s.isPlaying
      · have he : step (Ev.seekMouseUp x l bw) w
            = { w with
                s := { w.s with
                         seeking := false
                         currentTime := calculateNewTime x l bw w.s.longestDuration },
                elems := { w.elems with
                           videoTime := calculateNewTime x l bw w.s.longestDuration,
                           audioTime := calculateNewTime x l bw w.s.longestDuration },
                pending := w.pending ++ [CatchKind.nocatch],
                tracks := issuePlay w.tracks } := by
          simp [step, handleSeekMouseUp, hs, hp, applyTimeToVideos]
        rw [he]
        exact ⟨fun _ => ⟨rfl, rfl⟩, rfl, rfl, h4⟩
      · have he : step (Ev.seekMouseUp x l bw) w
            = { w with
                s := { w.s with
                         seeking := false
                         currentTime := calculateNewTime x l bw w.s.longestDuration },
                elems := { w.elems with
                           videoTime := calculateNewTime x l bw w.s.longestDuration,
                           audioTime := calculateNewTime x l bw w.s.longestDuration } } := by
          simp [step, handleSeekMouseUp, hs, hp, applyTimeToVideos]
        rw [he]
        exact ⟨fun hpl => absurd (hp (by exact hpl)) id, h2, rfl, h4⟩
    · have he : step (Ev.seekMouseUp x l bw) w = w := by
        simp [step, handleSeekMouseUp, hs]
      rw [he]
      exact ⟨h1, h2, h3, h4⟩
  | mouseLeave => exact ⟨h1, h2, h3, h4⟩
  | clickMute =>
    refine ⟨h1, h2, h3, ?_⟩
    show (!w.elems.videoMuted) = (!w.elems.audioMuted)
    rw [h4]
  | evPlayReject =>
    cases hpend : w.pending with
    | nil =>
      have he : step Ev.evPlayReject w = w := by simp [step, playReject, hpend]
      rw [he]
      exact ⟨h1, h2, h3, h4⟩
    | cons k rest =>
      have he : step Ev.evPlayReject w = applyCatch k { w with pending := rest } := by
        simp [step, playReject, hpend]
      rw [he]
      exact lockstep_applyCatch k _ ⟨h1, h2, h3, h4⟩
  | evRunCatch =>
    cases htr : w.toRun with
    | nil =>
      have he : step Ev.evRunCatch w = w := by simp [step, runCatch, htr]
      rw [he]
      exact ⟨h1, h2, h3, h4⟩
    | cons k rest =>
      have he : step Ev.evRunCatch w = applyCatch k { w with toRun := rest } := by
        simp [step, runCatch, htr]
      rw [he]
      exact lockstep_applyCatch k _ ⟨h1, h2, h3, h4⟩

lemma lockstep_run (es : List Ev) (w : World) (h : Lockstep w) : Lockstep (run es w) := by
  induction es generalizing w with
  | nil => exact h
  | cons e es ih => exact ih (step e w) (lockstep_step e w h)

/-- C8: in every session state reachable from the initial bound session by
any interleaving of events, `isPlaying = true` implies a play command has
been issued to both tracks, and the two tracks never diverge: their
play-issued flags, commanded positions and muted flags always agree,
because every logical command is fanned out to both. -/
theorem C8_lockstep_invariant (es : List Ev) : Lockstep (run es initWorld) := by
  apply lockstep_run
  refine ⟨fun h => ?_, rfl, rfl, rfl⟩
  exact absurd h (by decide)

end Cap
